import Mathlib

/-!
Shallow embedding of `check_apple.py` (thismachinechills/cheapbook): a
polling loop that fetches a refurbished-listings page, extracts product
rows, filters them by substring match of configured terms against the
specs text, deduplicates against a process-wide seen set, and submits a
notification task for each newly seen record.

Modelling conventions:
* Python strings become `String`; `str.strip()` becomes `pyStrip`
  (whitespace trimming on the character list); the Python substring test
  `term in specs` becomes infix containment of the character lists.
* A parsed page (`HtmlWrapper` of the whole document) is modelled by the
  list of its product rows in document order; a product row is modelled
  by the four pieces of text `check_apple.py` reads out of it (h3.a text,
  h3.a href, span.price text, td.specs text).  Listings are modelled as
  well-formed (all four sub-elements present): the claims under
  verification do not concern malformed-listing failures.
* Generators become lists (the pipeline is finite and fully consumed each
  cycle by `consume_macbooks`).
* The mutable state of one process run (the `seen` set, and the tasks
  submitted to the thread pool) becomes an explicit `LoopState` record
  threaded through the functions; `inserted` is a ghost trace of the
  `seen.add` calls and `sent` a trace of the `pool.submit` calls, so that
  "at most once" properties can be stated about a run.
* Configuration constants from the `base` module (BASE_URL, FIND_TERMS,
  SEND_EMAIL, LRU_CACHE_SIZE, RETRY, WAIT_SECONDS) are not under `src/`;
  they are opaque configuration, so they appear as parameters.
-/

/-- A product row (`tr.product` node) of the fetched page, restricted to
the four texts `check_apple.py` reads from it.  `specs_text` is the raw
text of the `td.specs` sub-element, before trimming. -/
structure Product where
  header_text : String
  href : String
  price_text : String
  specs_text : String
deriving DecidableEq, Repr

/-- A parsed page: the document's product rows in document order
(`page.find_all('tr', 'product')` yields exactly these). -/
structure Page where
  products : List Product
deriving DecidableEq, Repr

/-- The structured record built from a listing (the `MacBook` value type
from the `base` module: title, link, price, specs; equality by value). -/
structure MacBook where
  title : String
  link : String
  price : String
  specs : String
deriving DecidableEq, Repr

/-- Python's `str.strip()`: the string with leading and trailing
whitespace removed.  (Defined on the character list so that it reduces;
it agrees with trimming the string directly.) -/
def pyStrip (s : String) : String :=
  ⟨((s.toList.dropWhile Char.isWhitespace).reverse.dropWhile
      Char.isWhitespace).reverse⟩

/-- Python's substring test `t in s` on strings. -/
def substrB (t s : String) : Bool := decide (t.toList <:+: s.toList)

/-- `is_match(specs, terms)`: `all(term in specs for term in terms)`. -/
def is_match (specs : String) (terms : List String) : Bool :=
  terms.all (fun term => substrB term specs)

/-- `gen_products(page)`: yields the page's product rows in order. -/
def gen_products (page : Page) : List Product :=
  page.products

/-- `get_specs(product)` without the cache:
`product.find('td', 'specs').text.strip()`.  (The `lru_cache` decorator
is modelled separately by `cached_get_specs`; caching a pure function
does not change its value, which is proved below.) -/
def get_specs (product : Product) : String :=
  pyStrip product.specs_text

/-- `gen_filter_products(products, terms)`: yields each product whose
(extracted, trimmed) specs match the terms. -/
def gen_filter_products (products : List Product) (terms : List String) :
    List Product :=
  products.filter (fun product => is_match (get_specs product) terms)

section Pipeline

variable (BASE_URL : String)

/-- `get_macbook(product)`: builds the structured record; the link is the
base URL concatenated with the listing's relative href. -/
def get_macbook (product : Product) : MacBook :=
  { title := pyStrip product.header_text
    link := BASE_URL ++ product.href
    price := pyStrip product.price_text
    specs := get_specs product }

/-- `gen_macbooks(products)`: maps the record builder over its input. -/
def gen_macbooks (products : List Product) : List MacBook :=
  products.map (get_macbook BASE_URL)

/-- `gen_macbook_matches(page, terms)`: extract, filter, then build. -/
def gen_macbook_matches (page : Page) (terms : List String) : List MacBook :=
  gen_macbooks BASE_URL (gen_filter_products (gen_products page) terms)

end Pipeline

/-- The mutable state of one process run.  `seen` models the Python set;
`inserted` is the trace of `seen.add` calls and `sent` the trace of
`pool.submit(send_macbook_msg, ·)` calls, both in execution order. -/
structure LoopState where
  seen : Finset MacBook
  inserted : List MacBook
  sent : List MacBook
deriving DecidableEq

/-- The state at process start: `main` initializes `seen = set()`, and no
insertion or submission has happened yet. -/
def initState : LoopState :=
  { seen := ∅, inserted := [], sent := [] }

/-- The body of the `for macbook in macbooks` loop of `consume_macbooks`:
print (not modelled), then if the record is not in `seen`, add it and, if
`send_email`, submit a notification task. -/
def consumeStep (send_email : Bool) (st : LoopState) (macbook : MacBook) :
    LoopState :=
  if macbook ∈ st.seen then st
  else
    { seen := insert macbook st.seen
      inserted := st.inserted ++ [macbook]
      sent := if send_email then st.sent ++ [macbook] else st.sent }

/-- `consume_macbooks(macbooks, pool, seen, send_email)`: folds the loop
body over the records in order. -/
def consume_macbooks (macbooks : List MacBook) (send_email : Bool)
    (st : LoopState) : LoopState :=
  macbooks.foldl (consumeStep send_email) st

/-- The transient failure signal: `requests.RequestException`, the class
the loop's `except` clause catches (the spec's `TransientFetchError`). -/
inductive RequestException
  | mk
deriving DecidableEq, Repr

/-- An HTTP response as `requests.get` returns it: a status code and a
body.  The body is modelled post-parse (as the `Page` that
`HtmlWrapper(response.content)` produces from it).  `requests.get`
returns such a response for every completed HTTP exchange, including
responses whose status code is a 4xx/5xx failure; it raises
`RequestException` only for network-level errors (timeout, connection
reset, and the like). -/
structure Response where
  status : Nat
  content : Page
deriving DecidableEq, Repr

/-- The outcome of the `get(url)` call inside `wrap_page`: either the
HTTP client raises `RequestException`, or it returns a `Response`. -/
inductive RequestOutcome
  | exn : RequestOutcome
  | response : Response → RequestOutcome
deriving DecidableEq, Repr

/-- `wrap_page(url)`: calls `get(url)` and parses the body.  It performs
no status-code check (no `raise_for_status`), so it propagates exactly
the HTTP client's exception and otherwise returns the parsed body,
whatever the status code was. -/
def wrap_page (outcome : RequestOutcome) : Except RequestException Page :=
  match outcome with
  | RequestOutcome.exn => Except.error RequestException.mk
  | RequestOutcome.response r => Except.ok r.content

/-- Which `sleep` call a cycle ends with: `sleep(RETRY)` in the `except`
branch, `sleep(wait)` after a normal cycle. -/
inductive SleepKind
  | retry
  | poll
deriving DecidableEq, Repr

/-- The duration each sleep kind stands for, given the configured retry
delay and poll interval. -/
def cycle_sleep (RETRY wait : ℚ) : SleepKind → ℚ
  | SleepKind.retry => RETRY
  | SleepKind.poll => wait

/-- One iteration of the `while True` body of `loop`: attempt the fetch;
on `RequestException` sleep the retry delay and `continue` (no
extraction, state untouched); otherwise run the pipeline and
`consume_macbooks`, then sleep the poll interval. -/
def loopStep (BASE_URL : String) (terms : List String) (send_email : Bool)
    (outcome : RequestOutcome) (st : LoopState) : LoopState × SleepKind :=
  match wrap_page outcome with
  | Except.error _ => (st, SleepKind.retry)
  | Except.ok page =>
      (consume_macbooks (gen_macbook_matches BASE_URL page terms) send_email st,
       SleepKind.poll)

/-- A finite prefix of a process run: the loop iterated over a list of
fetch outcomes, threading the state. -/
def runCycles (BASE_URL : String) (terms : List String) (send_email : Bool)
    (outcomes : List RequestOutcome) (st : LoopState) : LoopState :=
  outcomes.foldl (fun s outcome => (loopStep BASE_URL terms send_email outcome s).1) st

/-- The memo table of the `lru_cache` decorator on `get_specs`: most
recently used entry first, keyed by the argument. -/
abbrev SpecsCache : Type := List (Product × String)

/-- LRU update: the entry for `p` moves to (or is created at) the
most-recently-used position, and the table is truncated to its maximum
size, dropping the least recently used entries. -/
def lru_update (maxsize : Nat) (p : Product) (v : String) (c : SpecsCache) :
    SpecsCache :=
  ((p, v) :: c.filter (fun e => decide (e.1 ≠ p))).take maxsize

/-- `get_specs` as decorated with `@lru_cache(maxsize=LRU_CACHE_SIZE)`:
look the argument up; on a hit return the stored string, on a miss
compute `get_specs` and store it.  The decorator is applied at module
level, so in the source this cache is process-wide: nothing in `loop`
clears it between cycles.  The key is the `HtmlWrapper` argument itself;
its equality lives in the `parse` module (not under `src/`) and is
modelled as equality of the texts the script reads from the node. -/
def cached_get_specs (maxsize : Nat) (c : SpecsCache) (p : Product) :
    String × SpecsCache :=
  match c.find? (fun e => decide (e.1 = p)) with
  | some e => (e.2, lru_update maxsize p e.2 c)
  | none => (get_specs p, lru_update maxsize p (get_specs p) c)

/-- A cache is well formed when every stored value is what the direct
extraction returns on its key. -/
def cacheOK (c : SpecsCache) : Prop :=
  ∀ e ∈ c, e.2 = get_specs e.1

instance (c : SpecsCache) : Decidable (cacheOK c) := by
  unfold cacheOK
  infer_instance

/-- The sequence of (cached) specs extractions one fetch cycle performs,
one per listing, threading the cache: returns the extracted strings in
order and the cache left behind for the next cycle. -/
def cycle_specs (maxsize : Nat) (c : SpecsCache) (products : List Product) :
    List String × SpecsCache :=
  products.foldl
    (fun acc p =>
      let r := cached_get_specs maxsize acc.2 p
      (acc.1 ++ [r.1], r.2))
    ([], c)

/-! ### Unfolding lemmas -/

theorem consume_nil (send_email : Bool) (st : LoopState) :
    consume_macbooks [] send_email st = st := rfl

theorem consume_cons (m : MacBook) (ms : List MacBook) (send_email : Bool)
    (st : LoopState) :
    consume_macbooks (m :: ms) send_email st
      = consume_macbooks ms send_email (consumeStep send_email st m) := rfl

theorem run_nil (B : String) (terms : List String) (send_email : Bool)
    (st : LoopState) : runCycles B terms send_email [] st = st := rfl

theorem run_cons (B : String) (terms : List String) (send_email : Bool)
    (o : RequestOutcome) (os : List RequestOutcome) (st : LoopState) :
    runCycles B terms send_email (o :: os) st
      = runCycles B terms send_email os (loopStep B terms send_email o st).1 := rfl

/-! ### One consume pass: the seen set only grows, every consumed record
ends up in it, the insertion trace stays duplicate-free, and the
submission trace follows the flag. -/

theorem consumeStep_seen_mono (send_email : Bool) (st : LoopState)
    (m : MacBook) : st.seen ⊆ (consumeStep send_email st m).seen := by
  unfold consumeStep
  split
  · exact Finset.Subset.refl _
  · exact Finset.subset_insert _ _

theorem consumeStep_mem_seen (send_email : Bool) (st : LoopState)
    (m : MacBook) : m ∈ (consumeStep send_email st m).seen := by
  unfold consumeStep
  split
  · assumption
  · exact Finset.mem_insert_self _ _

theorem consume_seen_mono (ms : List MacBook) (send_email : Bool)
    (st : LoopState) : st.seen ⊆ (consume_macbooks ms send_email st).seen := by
  induction ms generalizing st with
  | nil => exact Finset.Subset.refl _
  | cons m ms ih =>
      rw [consume_cons]
      exact Finset.Subset.trans (consumeStep_seen_mono send_email st m) (ih _)

theorem consume_mem_seen (ms : List MacBook) (send_email : Bool)
    (st : LoopState) :
    ∀ m ∈ ms, m ∈ (consume_macbooks ms send_email st).seen := by
  induction ms generalizing st with
  | nil => intro m hm; cases hm
  | cons m ms ih =>
      intro x hx
      rw [consume_cons]
      rcases List.mem_cons.mp hx with h | h
      · subst h
        exact consume_seen_mono ms send_email _ (consumeStep_mem_seen send_email st x)
      · exact ih _ x h

theorem consumeStep_invariant (send_email : Bool) (st : LoopState)
    (m : MacBook) (h1 : st.inserted.Nodup)
    (h2 : ∀ x ∈ st.inserted, x ∈ st.seen) :
    (consumeStep send_email st m).inserted.Nodup ∧
      ∀ x ∈ (consumeStep send_email st m).inserted,
        x ∈ (consumeStep send_email st m).seen := by
  unfold consumeStep
  split
  · exact ⟨h1, h2⟩
  · rename_i hm
    refine ⟨?_, ?_⟩
    · have hmem : m ∉ st.inserted := fun hx => hm (h2 m hx)
      simp [List.nodup_append, h1, hmem]
    · intro x hx
      simp only [List.mem_append, List.mem_singleton] at hx
      rcases hx with h | h
      · exact Finset.mem_insert_of_mem (h2 x h)
      · subst h
        exact Finset.mem_insert_self _ _

theorem consume_invariant (ms : List MacBook) (send_email : Bool)
    (st : LoopState) (h1 : st.inserted.Nodup)
    (h2 : ∀ x ∈ st.inserted, x ∈ st.seen) :
    (consume_macbooks ms send_email st).inserted.Nodup ∧
      ∀ x ∈ (consume_macbooks ms send_email st).inserted,
        x ∈ (consume_macbooks ms send_email st).seen := by
  induction ms generalizing st with
  | nil => exact ⟨h1, h2⟩
  | cons m ms ih =>
      rw [consume_cons]
      have h := consumeStep_invariant send_email st m h1 h2
      exact ih _ h.1 h.2

theorem consume_sent_of_not_send (ms : List MacBook) (st : LoopState) :
    (consume_macbooks ms false st).sent = st.sent := by
  induction ms generalizing st with
  | nil => rfl
  | cons m ms ih =>
      rw [consume_cons, ih]
      unfold consumeStep
      split <;> rfl

theorem consume_sent_eq_inserted (ms : List MacBook) (st : LoopState)
    (h : st.sent = st.inserted) :
    (consume_macbooks ms true st).sent
      = (consume_macbooks ms true st).inserted := by
  induction ms generalizing st with
  | nil => exact h
  | cons m ms ih =>
      rw [consume_cons]
      apply ih
      unfold consumeStep
      split
      · exact h
      · simp [h]

/-! ### Lifting the consume-pass facts through one cycle and a run -/

theorem loopStep_exn (B : String) (terms : List String) (send_email : Bool)
    (st : LoopState) :
    loopStep B terms send_email RequestOutcome.exn st = (st, SleepKind.retry) := rfl

theorem loopStep_response (B : String) (terms : List String)
    (send_email : Bool) (r : Response) (st : LoopState) :
    loopStep B terms send_email (RequestOutcome.response r) st
      = (consume_macbooks (gen_macbook_matches B r.content terms) send_email st,
         SleepKind.poll) := rfl

theorem loopStep_seen_mono (B : String) (terms : List String)
    (send_email : Bool) (o : RequestOutcome) (st : LoopState) :
    st.seen ⊆ ((loopStep B terms send_email o st).1).seen := by
  cases o with
  | exn => exact Finset.Subset.refl _
  | response r => exact consume_seen_mono _ _ _

theorem loopStep_invariant (B : String) (terms : List String)
    (send_email : Bool) (o : RequestOutcome) (st : LoopState)
    (h1 : st.inserted.Nodup) (h2 : ∀ x ∈ st.inserted, x ∈ st.seen) :
    ((loopStep B terms send_email o st).1).inserted.Nodup ∧
      ∀ x ∈ ((loopStep B terms send_email o st).1).inserted,
        x ∈ ((loopStep B terms send_email o st).1).seen := by
  cases o with
  | exn => exact ⟨h1, h2⟩
  | response r => exact consume_invariant _ _ _ h1 h2

theorem loopStep_sent_of_not_send (B : String) (terms : List String)
    (o : RequestOutcome) (st : LoopState) :
    ((loopStep B terms false o st).1).sent = st.sent := by
  cases o with
  | exn => rfl
  | response r => exact consume_sent_of_not_send _ _

theorem loopStep_sent_eq_inserted (B : String) (terms : List String)
    (o : RequestOutcome) (st : LoopState) (h : st.sent = st.inserted) :
    ((loopStep B terms true o st).1).sent
      = ((loopStep B terms true o st).1).inserted := by
  cases o with
  | exn => exact h
  | response r => exact consume_sent_eq_inserted _ _ h

theorem run_seen_mono (B : String) (terms : List String) (send_email : Bool)
    (os : List RequestOutcome) (st : LoopState) :
    st.seen ⊆ (runCycles B terms send_email os st).seen := by
  induction os generalizing st with
  | nil => exact Finset.Subset.refl _
  | cons o os ih =>
      rw [run_cons]
      exact Finset.Subset.trans (loopStep_seen_mono B terms send_email o st) (ih _)

theorem run_invariant (B : String) (terms : List String) (send_email : Bool)
    (os : List RequestOutcome) (st : LoopState)
    (h1 : st.inserted.Nodup) (h2 : ∀ x ∈ st.inserted, x ∈ st.seen) :
    (runCycles B terms send_email os st).inserted.Nodup ∧
      ∀ x ∈ (runCycles B terms send_email os st).inserted,
        x ∈ (runCycles B terms send_email os st).seen := by
  induction os generalizing st with
  | nil => exact ⟨h1, h2⟩
  | cons o os ih =>
      rw [run_cons]
      have h := loopStep_invariant B terms send_email o st h1 h2
      exact ih _ h.1 h.2

theorem run_sent_of_not_send (B : String) (terms : List String)
    (os : List RequestOutcome) (st : LoopState) :
    (runCycles B terms false os st).sent = st.sent := by
  induction os generalizing st with
  | nil => rfl
  | cons o os ih =>
      rw [run_cons, ih, loopStep_sent_of_not_send]

theorem run_sent_eq_inserted (B : String) (terms : List String)
    (os : List RequestOutcome) (st : LoopState) (h : st.sent = st.inserted) :
    (runCycles B terms true os st).sent
      = (runCycles B terms true os st).inserted := by
  induction os generalizing st with
  | nil => exact h
  | cons o os ih =>
      rw [run_cons]
      exact ih _ (loopStep_sent_eq_inserted B terms o st h)

/-! ### Concrete sample data for witnesses and counterexamples -/

/-- A listing whose trimmed specs contain both sample terms. -/
def matchingProduct : Product :=
  { header_text := " MacBook Air "
    href := "/shop/product/AIR1"
    price_text := " $849.00 "
    specs_text := " Apple M1 chip, 16GB RAM " }

/-- A listing whose trimmed specs do not contain the sample terms. -/
def nonMatchingProduct : Product :=
  { header_text := " MacBook Pro "
    href := "/shop/product/PRO2"
    price_text := " $1,099.00 "
    specs_text := " Apple M2 chip, 8GB RAM " }

/-- A sample page holding one matching and one non-matching listing. -/
def samplePage : Page :=
  { products := [matchingProduct, nonMatchingProduct] }

/-- Sample configured terms. -/
def sampleTerms : List String := ["M1", "16GB"]

/-- The record built from the matching sample listing. -/
def sampleMacBook : MacBook :=
  get_macbook "https://www.apple.com" matchingProduct

/-- C4: `is_match(specs, terms)` is true iff every term occurs as a
literal, case-sensitive substring of `specs`, and `is_match(specs, [])`
is true for every `specs`. -/
theorem is_match_iff_all_substrings (specs : String) (terms : List String) :
    (is_match specs terms = true ↔
      ∀ term ∈ terms, term.toList <:+: specs.toList) ∧
    is_match specs [] = true := by
  constructor
  · simp [is_match, substrB]
  · rfl

/-- Witness for C4 at concrete inputs. -/
theorem is_match_iff_all_substrings_witness :
    (is_match "Apple M1 chip, 16GB RAM" ["16GB"] = true ↔
      ∀ term ∈ ["16GB"], term.toList <:+: "Apple M1 chip, 16GB RAM".toList) ∧
    is_match "Apple M1 chip, 16GB RAM" [] = true :=
  is_match_iff_all_substrings "Apple M1 chip, 16GB RAM" ["16GB"]

/-- C9: `is_match` distributes over concatenation of the term lists, so
adding a term can only shrink the set of matching specs. -/
theorem is_match_append_distributes (specs : String) (ts1 ts2 : List String) :
    is_match specs (ts1 ++ ts2) = (is_match specs ts1 && is_match specs ts2) ∧
    (is_match specs ts1 = false → is_match specs (ts1 ++ ts2) = false) := by
  constructor
  · simp [is_match]
  · intro h
    simp only [is_match] at h ⊢
    simp [List.all_append, h]

/-- Witness for C9 at concrete inputs. -/
theorem is_match_append_distributes_witness :
    is_match "Apple M1 chip" (["M2"] ++ ["M1"])
      = (is_match "Apple M1 chip" ["M2"] && is_match "Apple M1 chip" ["M1"]) ∧
    (is_match "Apple M1 chip" ["M2"] = false →
      is_match "Apple M1 chip" (["M2"] ++ ["M1"]) = false) :=
  is_match_append_distributes "Apple M1 chip" ["M2"] ["M1"]

/-- C2: the pipeline yields exactly the records of the matching listings,
one per matching listing (the count is the number of matching listings),
in the listings' original document order (the filtered list is a sublist
of the page's listing list), and an empty page yields no records. -/
theorem pipeline_yields_matches_in_order (B : String) (terms : List String)
    (page : Page) :
    gen_macbook_matches B page terms
      = (gen_filter_products page.products terms).map (get_macbook B) ∧
    List.Sublist (gen_filter_products page.products terms) page.products ∧
    (gen_macbook_matches B page terms).length
      = page.products.countP (fun p => is_match (get_specs p) terms) ∧
    gen_macbook_matches B { products := [] } terms = [] := by
  refine ⟨rfl, List.filter_sublist _, ?_, rfl⟩
  simp [gen_macbook_matches, gen_macbooks, gen_filter_products, gen_products,
    List.countP_eq_length_filter]

/-- C6: a listing reaches the record builder only through the filter: every
listing the filter passes satisfies the term match, and the pipeline feeds
the record builder exactly the filter's output. -/
theorem filter_precedes_record_builder (B : String) (terms : List String)
    (page : Page) (p : Product)
    (h : p ∈ gen_filter_products (gen_products page) terms) :
    is_match (get_specs p) terms = true ∧
    gen_macbook_matches B page terms
      = gen_macbooks B (gen_filter_products (gen_products page) terms) :=
  ⟨(List.mem_filter.mp h).2, rfl⟩

/-- Witness for C6 at concrete inputs. -/
theorem filter_precedes_record_builder_witness :
    is_match (get_specs matchingProduct) sampleTerms = true ∧
    gen_macbook_matches "https://www.apple.com" samplePage sampleTerms
      = gen_macbooks "https://www.apple.com"
          (gen_filter_products (gen_products samplePage) sampleTerms) :=
  filter_precedes_record_builder "https://www.apple.com" sampleTerms samplePage
    matchingProduct (by decide)

/-- C1: over any finite prefix of a process run, the seen set only grows
(no record is ever removed); starting from the empty state of `main`, the
trace of insertions into the seen set has no duplicate (each distinct
record is inserted at most once, because the membership test precedes
every insertion), and the trace of notification submissions has no
duplicate (a notification is dispatched at most once per distinct record
over the whole run). -/
theorem seen_grows_insert_once_notify_once (B : String) (terms : List String)
    (send_email : Bool) (os : List RequestOutcome) (st : LoopState) :
    st.seen ⊆ (runCycles B terms send_email os st).seen ∧
    (runCycles B terms send_email os initState).inserted.Nodup ∧
    (runCycles B terms send_email os initState).sent.Nodup := by
  have hinit1 : initState.inserted.Nodup := List.nodup_nil
  have hinit2 : ∀ x ∈ initState.inserted, x ∈ initState.seen := by
    intro x hx
    simp [initState] at hx
  refine ⟨run_seen_mono B terms send_email os st, ?_, ?_⟩
  · exact (run_invariant B terms send_email os initState hinit1 hinit2).1
  · cases send_email with
    | false =>
        rw [run_sent_of_not_send]
        exact List.nodup_nil
    | true =>
        rw [run_sent_eq_inserted B terms os initState rfl]
        exact (run_invariant B terms true os initState hinit1 hinit2).1

/-- C3: a cycle whose fetch raises the transient error leaves the state
(seen set, insertion trace, submission trace) unchanged, performs no
extraction or consumption, and ends in the retry sleep, whose duration is
the configured retry delay, not the poll interval. -/
theorem transient_fetch_error_frame (B : String) (terms : List String)
    (send_email : Bool) (st : LoopState) (RETRY wait : ℚ) :
    loopStep B terms send_email RequestOutcome.exn st = (st, SleepKind.retry) ∧
    cycle_sleep RETRY wait
        (loopStep B terms send_email RequestOutcome.exn st).2 = RETRY ∧
    SleepKind.retry ≠ SleepKind.poll := by
  refine ⟨rfl, rfl, ?_⟩
  decide

/-- C7: with the notification flag false, `consume_macbooks` submits no
notification task (the submission trace is unchanged) while every record
it consumes still ends up in the seen set, which only grows. -/
theorem notification_disabled_still_dedups (ms : List MacBook)
    (st : LoopState) :
    (consume_macbooks ms false st).sent = st.sent ∧
    st.seen ⊆ (consume_macbooks ms false st).seen ∧
    ∀ m ∈ ms, m ∈ (consume_macbooks ms false st).seen :=
  ⟨consume_sent_of_not_send ms st, consume_seen_mono ms false st,
    consume_mem_seen ms false st⟩

/-- Witness for C7 at concrete inputs. -/
theorem notification_disabled_still_dedups_witness :
    (consume_macbooks [sampleMacBook] false initState).sent = initState.sent ∧
    initState.seen ⊆ (consume_macbooks [sampleMacBook] false initState).seen ∧
    ∀ m ∈ [sampleMacBook],
      m ∈ (consume_macbooks [sampleMacBook] false initState).seen :=
  notification_disabled_still_dedups [sampleMacBook] initState

/-- C10: a cycle whose page has no listing matching the terms leaves the
whole state unchanged (in particular the seen set is untouched and no
notification task is submitted) and ends in the normal poll sleep. -/
theorem no_match_cycle_frame (B : String) (terms : List String)
    (send_email : Bool) (r : Response) (st : LoopState)
    (h : ∀ p ∈ r.content.products, is_match (get_specs p) terms = false) :
    loopStep B terms send_email (RequestOutcome.response r) st
      = (st, SleepKind.poll) := by
  have hfil : gen_filter_products (gen_products r.content) terms = [] := by
    simp only [gen_filter_products, gen_products, List.filter_eq_nil_iff]
    intro p hp
    simp [h p hp]
  have hms : gen_macbook_matches B r.content terms = [] := by
    simp only [gen_macbook_matches, hfil, gen_macbooks, List.map_nil]
  rw [loopStep_response, hms, consume_nil]

/-- Witness for C10 at concrete inputs. -/
theorem no_match_cycle_frame_witness :
    loopStep "https://www.apple.com" ["M9"] true
        (RequestOutcome.response { status := 200, content := samplePage })
        initState
      = (initState, SleepKind.poll) :=
  no_match_cycle_frame "https://www.apple.com" ["M9"] true
    { status := 200, content := samplePage } initState (by decide)

/-- C5 counterexample: an HTTP exchange that completes with a failure
status code (here 500) does not make `wrap_page` fail.  `requests.get`
raises only for network-level errors, and `wrap_page` performs no
status-code check, so the error page's body is parsed and returned as a
document — refuting the claim that every non-recoverable HTTP failure
raises the transient error. -/
theorem wrap_page_http_failure_not_error :
    wrap_page (RequestOutcome.response { status := 500, content := samplePage })
      ≠ Except.error RequestException.mk ∧
    wrap_page (RequestOutcome.response { status := 500, content := samplePage })
      = Except.ok samplePage := by
  constructor
  · intro h
    simp [wrap_page] at h
  · rfl

/-- C5 (amended): `wrap_page` fails with the transient error exactly when
the HTTP client itself raises (timeout, connection reset, and the other
network-level `RequestException` cases), and that is the only error it
raises; every completed HTTP exchange — whatever its status code —
yields the parsed body as a document. -/
theorem wrap_page_error_iff_client_exn (o : RequestOutcome) :
    (wrap_page o = Except.error RequestException.mk ↔ o = RequestOutcome.exn) ∧
    ∀ r, wrap_page (RequestOutcome.response r) = Except.ok r.content := by
  refine ⟨?_, fun r => rfl⟩
  cases o with
  | exn => simp [wrap_page]
  | response r => simp [wrap_page]

/-- Witness for the amended C5 at a concrete input. -/
theorem wrap_page_error_iff_client_exn_witness :
    (wrap_page RequestOutcome.exn = Except.error RequestException.mk ↔
      RequestOutcome.exn = RequestOutcome.exn) ∧
    ∀ r, wrap_page (RequestOutcome.response r) = Except.ok r.content :=
  wrap_page_error_iff_client_exn RequestOutcome.exn

/-- C8 counterexample: the `lru_cache` on `get_specs` is applied at module
level and nothing in `loop` clears it between cycles, so it is not scoped
to one fetch cycle: after a first cycle extracts the specs of a listing,
the entry is still in the cache, and a second cycle looking up an equal
listing finds and reuses that first cycle's entry. -/
theorem specs_cache_entry_reused_across_cycles :
    ((cycle_specs 128 [] [matchingProduct]).2).find?
        (fun e => decide (e.1 = matchingProduct))
      = some (matchingProduct, get_specs matchingProduct) ∧
    (cached_get_specs 128 (cycle_specs 128 [] [matchingProduct]).2
        matchingProduct).1
      = get_specs matchingProduct := by
  constructor
  · rfl
  · rfl

/-- C8 (amended): memoizing the specs extraction preserves behavior: for
every listing and every cache whose entries agree with the direct
extraction, the cached `get_specs` returns exactly the trimmed specs
string of the direct extraction, the updated cache again agrees with the
direct extraction, and the cache never exceeds its configured maximum
size.  (The cache is process-wide, not per-cycle — see the
counterexample — but any cross-cycle reuse returns the same string,
because extraction is pure.) -/
theorem cached_get_specs_preserves_behavior (maxsize : Nat) (c : SpecsCache)
    (p : Product) (h : cacheOK c) :
    (cached_get_specs maxsize c p).1 = get_specs p ∧
    cacheOK (cached_get_specs maxsize c p).2 ∧
    ((cached_get_specs maxsize c p).2).length ≤ maxsize := by
  have hins : ∀ v, v = get_specs p → cacheOK (lru_update maxsize p v c) := by
    intro v hv e he
    have he2 : e ∈ (p, v) :: c.filter (fun x => decide (x.1 ≠ p)) :=
      List.mem_of_mem_take he
    rcases List.mem_cons.mp he2 with h1 | h1
    · subst h1
      exact hv
    · exact h e (List.mem_of_mem_filter h1)
  unfold cached_get_specs
  split
  · rename_i e hfind
    have hq := List.find?_some hfind
    simp only [decide_eq_true_eq] at hq
    have hp : e.1 = p := hq
    have hmem : e ∈ c := List.mem_of_find?_eq_some hfind
    have hv : e.2 = get_specs p := by rw [h e hmem, hp]
    exact ⟨hv, hins e.2 hv, List.length_take_le _ _⟩
  · exact ⟨rfl, hins _ rfl, List.length_take_le _ _⟩

/-- Witness for the amended C8 at concrete inputs. -/
theorem cached_get_specs_preserves_behavior_witness :
    (cached_get_specs 128 [(matchingProduct, get_specs matchingProduct)]
        nonMatchingProduct).1 = get_specs nonMatchingProduct ∧
    cacheOK (cached_get_specs 128
        [(matchingProduct, get_specs matchingProduct)] nonMatchingProduct).2 ∧
    ((cached_get_specs 128 [(matchingProduct, get_specs matchingProduct)]
        nonMatchingProduct).2).length ≤ 128 :=
  cached_get_specs_preserves_behavior 128
    [(matchingProduct, get_specs matchingProduct)] nonMatchingProduct
    (by intro e he; rw [List.mem_singleton] at he; subst he; rfl)

/-- Witness for C1 at concrete inputs. -/
theorem seen_grows_insert_once_notify_once_witness :
    initState.seen ⊆ (runCycles "https://www.apple.com" sampleTerms true
        [RequestOutcome.response { status := 200, content := samplePage }]
        initState).seen ∧
    (runCycles "https://www.apple.com" sampleTerms true
        [RequestOutcome.response { status := 200, content := samplePage }]
        initState).inserted.Nodup ∧
    (runCycles "https://www.apple.com" sampleTerms true
        [RequestOutcome.response { status := 200, content := samplePage }]
        initState).sent.Nodup :=
  seen_grows_insert_once_notify_once "https://www.apple.com" sampleTerms true
    [RequestOutcome.response { status := 200, content := samplePage }] initState

/-- Witness for C2 at concrete inputs. -/
theorem pipeline_yields_matches_in_order_witness :
    gen_macbook_matches "https://www.apple.com" samplePage sampleTerms
      = (gen_filter_products samplePage.products sampleTerms).map
          (get_macbook "https://www.apple.com") ∧
    List.Sublist (gen_filter_products samplePage.products sampleTerms)
      samplePage.products ∧
    (gen_macbook_matches "https://www.apple.com" samplePage sampleTerms).length
      = samplePage.products.countP
          (fun p => is_match (get_specs p) sampleTerms) ∧
    gen_macbook_matches "https://www.apple.com" { products := [] } sampleTerms
      = [] :=
  pipeline_yields_matches_in_order "https://www.apple.com" sampleTerms samplePage

/-- Witness for C3 at concrete inputs. -/
theorem transient_fetch_error_frame_witness :
    loopStep "https://www.apple.com" sampleTerms true RequestOutcome.exn
        initState
      = (initState, SleepKind.retry) ∧
    cycle_sleep 2 300
        (loopStep "https://www.apple.com" sampleTerms true RequestOutcome.exn
          initState).2 = 2 ∧
    SleepKind.retry ≠ SleepKind.poll :=
  transient_fetch_error_frame "https://www.apple.com" sampleTerms true
    initState 2 300
